import Mathlib

/-!
Verification development for the tennis-court booking service.

The definitions below are a shallow embedding of the TypeScript sources:

* `src/services/googleCalendar.ts` — slot calculation and credential refresh
  (`getAvailableSlots`, `getAvailableTimeSlots`, `getAvailableDaySlots`,
  `refreshTokenIfNeeded`);
* `src/database/repository.ts` — the booking repository
  (`createBooking`, `updateBooking`, `cancelBooking`, `logBookingHistory`);
* `src/database/migration.ts` — the migration manager
  (`getMigrations`, `runMigrations`, `calculateMigrationChecksum`).

Modelling conventions:

* Calendar instants (`moment` values) are modelled at minute precision as a
  `Moment` record holding an absolute day index, an hour and a minute.  The
  day index is aligned so that a day whose index is divisible by 7 is a
  Sunday, matching the `currentDate.day() === 0` check in the source.
* SQLite rows are Lean structures; the `bookings` and `booking_history`
  tables are lists of rows, with `AUTOINCREMENT` modelled by a `nextId`
  counter.  `createdAt` and `updatedAt` wall-clock columns are abstracted
  away (the source fills them with `CURRENT_TIMESTAMP`).
* The repository executes its SQL statements one by one without any
  wrapping transaction (`better-sqlite3` auto-commits each statement), so
  the durable state after a run that stops early is the state produced by
  the prefix of statements that did execute.  `runStmts` captures this.
* Fallible operations return `Except RepoError`; the catch in
  `createBooking` that translates `SQLITE_CONSTRAINT_UNIQUE` into the error
  message "This time slot is already booked" is modelled by mapping
  `RepoError.uniqueViolation` to `RepoError.duplicateSlot`.
* The SHA-256 used for migration checksums is kept abstract as a `hash`
  parameter; `calculateMigrationChecksum` applies it to `up ++ down`
  exactly as the source hashes `migration.up + migration.down`.
-/

/-! ## Calendar moments -/

/-- A calendar instant at minute precision.  `day` is an absolute day
index; the epoch is aligned so that `day % 7 = 0` means Sunday, matching
the `moment.day() === 0` test in the source. -/
structure Moment where
  day : Nat
  hour : Nat
  minute : Nat
deriving DecidableEq, Repr

/-- Strict chronological order on moments, as used by `moment.isBefore`. -/
def Moment.isBefore (a b : Moment) : Bool :=
  a.day < b.day ||
    (a.day == b.day && (a.hour < b.hour || (a.hour == b.hour && a.minute < b.minute)))

/-- A slot offered to the user: `TimeSlot` from `src/types`.  The source
renders `date` as a `YYYY-MM-DD` string and `time` as `HH:mm` with the
minute always `00`; here `date` is the absolute day index and `time` the
hour. -/
structure TimeSlot where
  date : Nat
  time : Nat
  available : Bool
deriving DecidableEq, Repr

/-- A day-level slot: `DayTimeSlot` from `src/types`. -/
structure DayTimeSlot where
  duration : String
  date : Nat
  available : Bool
deriving DecidableEq, Repr

/-- The fixed working-hours template of `googleCalendar.ts`:
`[8, 9, 10, 11, 14, 15, 16, 17, 18, 19]`. -/
def workingHours : List Nat := [8, 9, 10, 11, 14, 15, 16, 17, 18, 19]

/-- `GoogleCalendarService.getAvailableSlots(daysAhead)` from
`googleCalendar.ts`.  `busy` is the set of event start instants returned by
the calendar, already truncated to minute precision (the source formats
each `event.start.dateTime` with `YYYY-MM-DD HH:mm`).  The function walks
`daysAhead` whole days starting today, skips past days and Sundays, emits
one candidate slot per working hour that is not in the past, and finally
keeps only the available ones. -/
def getAvailableSlots (now : Moment) (daysAhead : Nat) (busy : List Moment) : List TimeSlot :=
  let availableSlots := (List.range daysAhead).flatMap (fun day =>
    let currentDate : Moment := { now with day := now.day + day }
    if currentDate.day < now.day || currentDate.day % 7 == 0 then []
    else
      workingHours.filterMap (fun hour =>
        let slotTime : Moment := ⟨currentDate.day, hour, 0⟩
        if slotTime.isBefore now then none
        else some { date := slotTime.day, time := hour,
                    available := !(decide (slotTime ∈ busy)) }))
  availableSlots.filter (·.available)

/-- `GoogleCalendarService.getAvailableTimeSlots(time)` from
`googleCalendar.ts`, for a single queried day.  The source parses the
callback string into a day and builds `bookingDate` at the start of that
day; the parsing is abstracted and the day index `bookingDay` is taken
directly.  Note that, unlike `getAvailableSlots`, this loop has no
day-of-week check. -/
def getAvailableTimeSlots (bookingDay : Nat) (now : Moment) (busy : List Moment) :
    List TimeSlot :=
  let availableSlots := workingHours.filterMap (fun hour =>
    let slotTime : Moment := ⟨bookingDay, hour, 0⟩
    if slotTime.isBefore now then none
    else some { date := slotTime.day, time := hour,
                available := !(decide (slotTime ∈ busy)) })
  availableSlots.filter (·.available)

/-- `GoogleCalendarService.getAvailableDaySlots(duration, daysAhead)` from
`googleCalendar.ts`.  `eventStarts` is the list of start instants of the
events the calendar returned; the source keys its busy set by the date
component only (`format("YYYY-MM-DD")`) and offers every day in the window
whose date is not in that set — with no past-day or weekday filtering. -/
def getAvailableDaySlots (duration : String) (now : Moment) (daysAhead : Nat)
    (eventStarts : List Moment) : List DayTimeSlot :=
  let busySlots := eventStarts.map (·.day)
  let availableSlots := (List.range daysAhead).map (fun day =>
    let currentDate := now.day + day
    { duration := duration, date := currentDate,
      available := !(decide (currentDate ∈ busySlots)) : DayTimeSlot })
  availableSlots.filter (·.available)

/-! ## Credential refresh -/

/-- The singleton row of the `auth_tokens` table. -/
structure StoredTokens where
  accessToken : String
  refreshToken : String
  expiryDate : Int
deriving DecidableEq, Repr

/-- The credential set returned by the external provider on a refresh
exchange. -/
structure Credentials where
  access_token : String
  refresh_token : String
  expiry_date : Int
deriving DecidableEq, Repr

/-- Errors surfaced by the calendar service layer.  `authenticationFailed`
is the dedicated error thrown by `refreshTokenIfNeeded` ("Authentication
failed. Please re-authenticate."); `apiError` stands for any other failure
of the external calendar API. -/
inductive CalendarError where
  | authenticationFailed
  | apiError (msg : String)
deriving DecidableEq, Repr

/-- `GoogleCalendarService.refreshTokenIfNeeded` from `googleCalendar.ts`.
The body is a single `try` block that calls
`this.auth.refreshAccessToken()` as its very first action — it never reads
the stored expiry or the clock — then persists the returned credential set.
`refreshAccessToken` models the outcome of the provider exchange (`none`
when the exchange throws); `now` and `stored` are the clock and the stored
credential row, which the source has access to but does not consult.  The
second component counts how many refresh exchanges the call performed. -/
def refreshTokenIfNeeded (refreshAccessToken : Option Credentials) (now : Int)
    (stored : Option StoredTokens) : Except CalendarError (Option StoredTokens) × Nat :=
  (match refreshAccessToken with
   | none => .error .authenticationFailed
   | some credentials =>
       .ok (some ⟨credentials.access_token, credentials.refresh_token,
                  credentials.expiry_date⟩), 1)

/-- `GoogleCalendarService.createEvent` from `googleCalendar.ts`, as a
representative external-calendar call: it first awaits
`refreshTokenIfNeeded` and, if that throws, the catch merely logs and
rethrows, so the calling operation fails with the same error.
`insertResult` models the outcome of the `events.insert` API call. -/
def createEvent (refreshAccessToken : Option Credentials) (now : Int)
    (stored : Option StoredTokens) (insertResult : Except CalendarError String) :
    Except CalendarError String :=
  match (refreshTokenIfNeeded refreshAccessToken now stored).1 with
  | .error e => .error e
  | .ok _ => insertResult

/-! ## Booking repository -/

/-- The `status` column: `CHECK (status IN ("active", "cancelled",
"completed"))` in the schema. -/
inductive BookingStatus where
  | active
  | cancelled
  | completed
deriving DecidableEq, Repr

/-- The caller-supplied columns of a `bookings` row — the
`Omit<Booking, "id" | "createdAt" | "updatedAt">` argument of
`createBooking`.  Timestamp columns are abstracted away. -/
structure BookingData where
  telegramUserId : String
  username : Option String
  phoneNumber : Option String
  sessionDate : String
  sessionTime : String
  googleEventId : Option String
  status : BookingStatus
  notes : Option String
deriving DecidableEq, Repr

/-- A stored `bookings` row: the data columns plus the `AUTOINCREMENT`
primary key. -/
structure Booking where
  id : Nat
  data : BookingData
deriving DecidableEq, Repr

/-- One field of a `Partial<Booking>` update object, keyed as in the
JavaScript object literal; a `Partial<Booking>` is a list of these (the
field insertion order of the object). -/
inductive FieldUpdate where
  | telegramUserId (v : String)
  | username (v : Option String)
  | phoneNumber (v : Option String)
  | sessionDate (v : String)
  | sessionTime (v : String)
  | googleEventId (v : Option String)
  | status (v : BookingStatus)
  | notes (v : Option String)
deriving DecidableEq, Repr

/-- The JavaScript key of an update field, as produced by
`Object.keys(updates)`. -/
def FieldUpdate.key : FieldUpdate → String
  | .telegramUserId _ => "telegramUserId"
  | .username _ => "username"
  | .phoneNumber _ => "phoneNumber"
  | .sessionDate _ => "sessionDate"
  | .sessionTime _ => "sessionTime"
  | .googleEventId _ => "googleEventId"
  | .status _ => "status"
  | .notes _ => "notes"

/-- Apply one update field to a row, as the generated `SET key = ?` does. -/
def applyUpdate (d : BookingData) : FieldUpdate → BookingData
  | .telegramUserId v => { d with telegramUserId := v }
  | .username v => { d with username := v }
  | .phoneNumber v => { d with phoneNumber := v }
  | .sessionDate v => { d with sessionDate := v }
  | .sessionTime v => { d with sessionTime := v }
  | .googleEventId v => { d with googleEventId := v }
  | .status v => { d with status := v }
  | .notes v => { d with notes := v }

/-- Apply a whole `Partial<Booking>` — the JavaScript spread
`{ ...oldBooking, ...updates }` and likewise the effect of the generated
`UPDATE` statement. -/
def applyUpdates (d : BookingData) (updates : List FieldUpdate) : BookingData :=
  updates.foldl applyUpdate d

/-- The `action` column of `booking_history`:
`CHECK (action IN ("created", "modified", "cancelled", "completed"))`. -/
inductive HistAction where
  | created
  | modified
  | cancelled
  | completed
deriving DecidableEq, Repr

/-- A JSON snapshot stored in `oldValues`/`newValues`.  A snapshot of a
full stored row (`JSON.stringify(oldBooking)`) carries the row id; the
snapshot of the creation payload (`JSON.stringify(booking)` in
`createBooking`) has no id field, hence `id : Option Nat`. -/
structure Snapshot where
  id : Option Nat
  values : BookingData
deriving DecidableEq, Repr

/-- Snapshot of a creation payload (no id). -/
def Snapshot.ofData (d : BookingData) : Snapshot := ⟨none, d⟩

/-- Snapshot of a stored row (with id). -/
def Snapshot.ofBooking (b : Booking) : Snapshot := ⟨some b.id, b.data⟩

/-- A `booking_history` row.  The `timestamp` column is abstracted away;
the list order of the table is insertion order. -/
structure HistoryEntry where
  bookingId : Nat
  action : HistAction
  oldValues : Option Snapshot
  newValues : Option Snapshot
  performedBy : String
deriving DecidableEq, Repr

/-- The durable database state: the `bookings` table, the
`booking_history` table (in insertion order) and the next `AUTOINCREMENT`
id for `bookings`. -/
structure DbState where
  bookings : List Booking
  history : List HistoryEntry
  nextId : Nat
deriving DecidableEq, Repr

/-- Errors raised inside the repository.  `uniqueViolation` is the raw
`SQLITE_CONSTRAINT_UNIQUE`; `duplicateSlot` is the translated error
"This time slot is already booked"; `notFound` is "Booking not found";
`sqlMalformed` is the exception `db.prepare` raises on a syntactically
invalid statement. -/
inductive RepoError where
  | uniqueViolation
  | duplicateSlot
  | notFound
  | sqlMalformed
deriving DecidableEq, Repr

/-- Does row `b` occupy the slot `(sessionDate, sessionTime)`?  This is
the column pair of the `CONSTRAINT unique_session UNIQUE (sessionDate,
sessionTime)` of migration 1 — note the constraint does not mention
`status`. -/
def occupiesSlot (sessionDate sessionTime : String) (b : Booking) : Bool :=
  b.data.sessionDate == sessionDate && b.data.sessionTime == sessionTime

/-- Does the table contain two distinct rows sharing a
`(sessionDate, sessionTime)` pair?  Used to enforce `unique_session` on
updates as well as inserts. -/
def hasSlotClash : List Booking → Bool
  | [] => false
  | b :: rest =>
      rest.any (occupiesSlot b.data.sessionDate b.data.sessionTime) || hasSlotClash rest

/-- One primitive SQL statement the repository can run.  Outside any
transaction each such statement commits on its own. -/
inductive Stmt where
  | insertBooking (d : BookingData)
  | updateRow (id : Nat) (updates : List FieldUpdate)
  | insertHistory (e : HistoryEntry)
deriving DecidableEq, Repr

/-- Append a `booking_history` row — the body of
`BookingRepository.logBookingHistory` (a bare parameterized `INSERT`). -/
def logBookingHistory (s : DbState) (bookingId : Nat) (action : HistAction)
    (oldValues newValues : Option Snapshot) (performedBy : String) : DbState :=
  { s with history := s.history ++ [⟨bookingId, action, oldValues, newValues, performedBy⟩] }

/-- Execute one statement against the store.  The `INSERT` enforces the
`unique_session` constraint, raising `SQLITE_CONSTRAINT_UNIQUE` when the
pair is already taken by any row, whatever its status; the `UPDATE`
applies the `SET` list to the row matched by `WHERE id = ?` and enforces
the same constraint.  History inserts always succeed (the foreign key on
`booking_history` is not enforced: `better-sqlite3` leaves the
`foreign_keys` pragma off). -/
def execStmt (s : DbState) : Stmt → Except RepoError DbState
  | .insertBooking d =>
      if s.bookings.any (occupiesSlot d.sessionDate d.sessionTime) then
        .error .uniqueViolation
      else
        .ok { s with bookings := s.bookings ++ [⟨s.nextId, d⟩], nextId := s.nextId + 1 }
  | .updateRow id updates =>
      let newBookings := s.bookings.map (fun b =>
        if b.id == id then ⟨b.id, applyUpdates b.data updates⟩ else b)
      if hasSlotClash newBookings then .error .uniqueViolation
      else .ok { s with bookings := newBookings }
  | .insertHistory e => .ok { s with history := s.history ++ [e] }

/-- Run a statement list in order, each statement auto-committing; stop at
the first failing statement.  Because no transaction wraps the list, the
result of running any prefix is a durable state the store can be left
in. -/
def runStmts (s : DbState) : List Stmt → DbState
  | [] => s
  | stmt :: rest =>
      match execStmt s stmt with
      | .ok s1 => runStmts s1 rest
      | .error _ => s

/-- The JavaScript coercion `(booking as any).notes || null`: an empty
string is falsy, so it is stored as NULL. -/
def jsFalsyNotes : Option String → Option String
  | some str => if str == "" then none else some str
  | none => none

/-- The statement sequence `BookingRepository.createBooking` issues: the
parameterized `INSERT INTO bookings` followed by the
`INSERT INTO booking_history` of `logBookingHistory(result.lastInsertRowid,
"created", null, booking, booking.telegramUserId)`.  Note the history
snapshot logs the original `booking` argument, not the notes-normalized
row. -/
def createBookingStmts (s : DbState) (booking : BookingData) : List Stmt :=
  [ .insertBooking { booking with notes := jsFalsyNotes booking.notes },
    .insertHistory ⟨s.nextId, .created, none, some (.ofData booking),
                    booking.telegramUserId⟩ ]

/-- `BookingRepository.createBooking` run to completion.  On success it
returns the new state and `result.lastInsertRowid`; a
`SQLITE_CONSTRAINT_UNIQUE` failure of the insert is caught and rethrown as
the dedicated error "This time slot is already booked"
(`RepoError.duplicateSlot`). -/
def createBooking (s : DbState) (booking : BookingData) :
    Except RepoError (DbState × Nat) :=
  match execStmt s (.insertBooking { booking with notes := jsFalsyNotes booking.notes }) with
  | .error .uniqueViolation => .error .duplicateSlot
  | .error e => .error e
  | .ok s1 =>
      let lastInsertRowid := s.nextId
      .ok (logBookingHistory s1 lastInsertRowid .created none
             (some (.ofData booking)) booking.telegramUserId, lastInsertRowid)

/-- `BookingRepository.getBookingById`: `SELECT * FROM bookings WHERE
id = ?` (first matching row or null). -/
def getBookingById (s : DbState) (id : Nat) : Option Booking :=
  s.bookings.find? (fun b => b.id == id)

/-- The comma-joined field list
`Object.keys(updates).map(key => key + " = ?").join(", ")` of
`updateBooking`, transcribed recursively. -/
def joinFields : List FieldUpdate → String
  | [] => ""
  | [u] => u.key ++ " = ?"
  | u :: rest => u.key ++ " = ?" ++ ", " ++ joinFields rest

/-- The full `SET` clause of the generated statement:
`SET <fields>, updatedAt = CURRENT_TIMESTAMP`. -/
def setClause (updates : List FieldUpdate) : String :=
  joinFields updates ++ ", updatedAt = CURRENT_TIMESTAMP"

/-- Whitespace as far as the SQL tokenizer is concerned. -/
def isSpaceChar (c : Char) : Bool :=
  c == ' ' || c == '\t' || c == '\n' || c == '\r'

/-- Strip leading and trailing whitespace from a token stream. -/
def trimChars (cs : List Char) : List Char :=
  ((cs.dropWhile isSpaceChar).reverse.dropWhile isSpaceChar).reverse

/-- Characters allowed in an SQL column identifier. -/
def isIdentChar (c : Char) : Bool :=
  c.isAlpha || c.isDigit || c == '_'

/-- Split a character stream at commas (the list separator of a `SET`
clause; identifiers and the `?`/`CURRENT_TIMESTAMP` right-hand sides
contain no comma). -/
def splitCommaAux : List Char → List Char → List (List Char)
  | [], acc => [acc.reverse]
  | c :: rest, acc =>
      if c == ',' then acc.reverse :: splitCommaAux rest []
      else splitCommaAux rest (c :: acc)

/-- Split a string at commas. -/
def splitComma (s : String) : List (List Char) :=
  splitCommaAux s.data []

/-- Is one comma-separated piece a well-formed SQL assignment
`identifier = expression`? -/
def isValidAssignment (cs : List Char) : Bool :=
  let t := trimChars cs
  let ident := t.takeWhile isIdentChar
  let rest := trimChars (t.drop ident.length)
  !ident.isEmpty &&
    (match rest with
     | c :: value => c == '=' && !(trimChars value).isEmpty
     | [] => false)

/-- Grammar of the `SET` clause fragment SQLite parses: one or more
comma-separated assignments.  `db.prepare` succeeds on the generated
`UPDATE` exactly when this holds of its `SET` clause. -/
def isValidSetClause (clause : String) : Bool :=
  (splitComma clause).all isValidAssignment

/-- The write statements `BookingRepository.updateBooking` actually
reaches: none when the booking lookup fails ("Booking not found") or when
`db.prepare` rejects the generated statement — both happen before any
write — and otherwise the parameterized `UPDATE` followed by the history
`INSERT` of `logBookingHistory(id, "modified", oldBooking,
{ ...oldBooking, ...updates }, performedBy)`. -/
def updateBookingStmts (s : DbState) (id : Nat) (updates : List FieldUpdate)
    (performedBy : String) : List Stmt :=
  match getBookingById s id with
  | none => []
  | some oldBooking =>
      if !(isValidSetClause (setClause updates)) then []
      else
        [ .updateRow id updates,
          .insertHistory ⟨id, .modified, some (.ofBooking oldBooking),
            some (.ofBooking ⟨oldBooking.id, applyUpdates oldBooking.data updates⟩),
            performedBy⟩ ]

/-- `BookingRepository.updateBooking` run to completion: load the old row
(throwing "Booking not found" if absent), prepare `UPDATE bookings SET
<fields>, updatedAt = CURRENT_TIMESTAMP WHERE id = ?` (throwing before any
write if the generated SQL is malformed), run it, then log the `modified`
history entry with the old row and `{ ...oldBooking, ...updates }` as
snapshots. -/
def updateBooking (s : DbState) (id : Nat) (updates : List FieldUpdate)
    (performedBy : String) : Except RepoError DbState :=
  match getBookingById s id with
  | none => .error .notFound
  | some oldBooking =>
      if !(isValidSetClause (setClause updates)) then .error .sqlMalformed
      else
        match execStmt s (.updateRow id updates) with
        | .error e => .error e
        | .ok s1 =>
            .ok (logBookingHistory s1 id .modified (some (.ofBooking oldBooking))
                  (some (.ofBooking ⟨oldBooking.id,
                          applyUpdates oldBooking.data updates⟩)) performedBy)

/-- `BookingRepository.cancelBooking` run to completion: load the old row
(throwing "Booking not found" if absent), delegate to
`updateBooking(id, { status: "cancelled" }, performedBy)` — which itself
logs a `modified` history entry — and then log a second, `cancelled`,
history entry with the same before/after snapshots. -/
def cancelBooking (s : DbState) (id : Nat) (performedBy : String) :
    Except RepoError DbState :=
  match getBookingById s id with
  | none => .error .notFound
  | some oldBooking =>
      match updateBooking s id [.status .cancelled] performedBy with
      | .error e => .error e
      | .ok s1 =>
          .ok (logBookingHistory s1 id .cancelled (some (.ofBooking oldBooking))
                (some (.ofBooking ⟨oldBooking.id,
                        applyUpdates oldBooking.data [.status .cancelled]⟩)) performedBy)

/-! ## Migrations -/

/-- A defined migration (`Migration` from `database/types.ts`); the
`timestamp : Date` field, filled with `new Date()`, is abstracted away. -/
structure Migration where
  version : Nat
  name : String
  up : String
  down : String
deriving DecidableEq, Repr

/-- A row of the `migrations` table (`version`, `name`, `checksum`; the
`executed_at` wall-clock column is abstracted away). -/
structure MigrationRecord where
  version : Nat
  name : String
  checksum : String
deriving DecidableEq, Repr

/-- The migration-relevant durable state: the rows of the `migrations`
table and the scripts passed to `db.exec`, in execution order. -/
structure MigrationStore where
  migrations : List MigrationRecord
  executedScripts : List String
deriving DecidableEq, Repr

/-- The fixed migration list of `MigrationManager.getMigrations`.  The SQL
text is reproduced from the source with single quotes written as the
escape `\x27`. -/
def getMigrations : List Migration :=
  [ { version := 1
      name := "initial_schema"
      up := "
          CREATE TABLE IF NOT EXISTS bookings (
            id INTEGER PRIMARY KEY AUTOINCREMENT,
            telegramUserId TEXT NOT NULL,
            username TEXT,
            phoneNumber TEXT,
            sessionDate TEXT NOT NULL,
            sessionTime TEXT NOT NULL,
            googleEventId TEXT,
            status TEXT DEFAULT \x27active\x27 CHECK (status IN (\x27active\x27, \x27cancelled\x27, \x27completed\x27)),
            notes TEXT,
            createdAt DATETIME DEFAULT CURRENT_TIMESTAMP,
            updatedAt DATETIME DEFAULT CURRENT_TIMESTAMP,
            CONSTRAINT unique_session UNIQUE (sessionDate, sessionTime)
          );

          CREATE INDEX IF NOT EXISTS idx_bookings_user ON bookings(telegramUserId);
          CREATE INDEX IF NOT EXISTS idx_bookings_date ON bookings(sessionDate, sessionTime);
          CREATE INDEX IF NOT EXISTS idx_bookings_status ON bookings(status);
        "
      down := "
          DROP TABLE IF EXISTS bookings;
        " },
    { version := 2
      name := "auth_tokens_table"
      up := "
          CREATE TABLE IF NOT EXISTS auth_tokens (
            id INTEGER PRIMARY KEY AUTOINCREMENT,
            accessToken TEXT NOT NULL,
            refreshToken TEXT NOT NULL,
            expiryDate INTEGER NOT NULL,
            scope TEXT,
            createdAt DATETIME DEFAULT CURRENT_TIMESTAMP,
            updatedAt DATETIME DEFAULT CURRENT_TIMESTAMP
          );
        "
      down := "
          DROP TABLE IF EXISTS auth_tokens;
        " },
    { version := 3
      name := "user_preferences_table"
      up := "
          CREATE TABLE IF NOT EXISTS user_preferences (
            id INTEGER PRIMARY KEY AUTOINCREMENT,
            telegramUserId TEXT NOT NULL UNIQUE,
            timezone TEXT DEFAULT \x27Europe/Kiev\x27,
            notifications BOOLEAN DEFAULT true,
            language TEXT DEFAULT \x27en\x27,
            preferredTimes TEXT, -- JSON array of preferred hours
            createdAt DATETIME DEFAULT CURRENT_TIMESTAMP,
            updatedAt DATETIME DEFAULT CURRENT_TIMESTAMP
          );

          CREATE INDEX IF NOT EXISTS idx_user_prefs_user ON user_preferences(telegramUserId);
        "
      down := "
          DROP TABLE IF EXISTS user_preferences;
        " },
    { version := 4
      name := "booking_history_table"
      up := "
          CREATE TABLE IF NOT EXISTS booking_history (
            id INTEGER PRIMARY KEY AUTOINCREMENT,
            bookingId INTEGER NOT NULL,
            action TEXT NOT NULL CHECK (action IN (\x27created\x27, \x27modified\x27, \x27cancelled\x27, \x27completed\x27)),
            oldValues TEXT, -- JSON of old values for modifications
            newValues TEXT, -- JSON of new values for modifications
            performedBy TEXT NOT NULL, -- telegramUserId who performed the action
            timestamp DATETIME DEFAULT CURRENT_TIMESTAMP,
            FOREIGN KEY (bookingId) REFERENCES bookings(id)
          );

          CREATE INDEX IF NOT EXISTS idx_history_booking ON booking_history(bookingId);
          CREATE INDEX IF NOT EXISTS idx_history_timestamp ON booking_history(timestamp);
        "
      down := "
          DROP TABLE IF EXISTS booking_history;
        " } ]

/-- `SELECT MAX(version) as version FROM migrations`, with
`row?.version || 0` mapping an empty table to 0. -/
def currentVersion (t : List MigrationRecord) : Nat :=
  (t.map (·.version)).foldl max 0

/-- `MigrationManager.calculateMigrationChecksum`: the SHA-256 hex digest
of `migration.up + migration.down`, with the digest function kept abstract
as `hash`. -/
def calculateMigrationChecksum (hash : String → String) (migration : Migration) : String :=
  hash (migration.up ++ migration.down)

/-- `MigrationManager.runMigrations`: read the maximum recorded version,
filter the defined migrations to those with a strictly larger version, and
apply each pending migration in list order — each one inside its own
transaction that runs `db.exec(migration.up)` and inserts its
`(version, name, checksum)` record.  Returns the new store and the list of
records inserted, one per per-migration transaction, in execution
order. -/
def runMigrations (hash : String → String) (store : MigrationStore) :
    MigrationStore × List MigrationRecord :=
  let cv := currentVersion store.migrations
  let pendingMigrations := getMigrations.filter (fun m => decide (cv < m.version))
  let applied := pendingMigrations.map (fun m =>
    (⟨m.version, m.name, calculateMigrationChecksum hash m⟩ : MigrationRecord))
  ({ migrations := store.migrations ++ applied,
     executedScripts := store.executedScripts ++ pendingMigrations.map (·.up) },
   applied)

/-! ## Concrete inputs used by counterexamples and witnesses -/

/-- The empty store, as left by the migrations on a fresh database. -/
def db0 : DbState := { bookings := [], history := [], nextId := 1 }

/-- A concrete creation payload for the slot (2024-06-10, 14:00). -/
def bd0 : BookingData :=
  { telegramUserId := "123456"
    username := some "player"
    phoneNumber := none
    sessionDate := "2024-06-10"
    sessionTime := "14:00"
    googleEventId := some "evt1"
    status := .active
    notes := none }

/-- The state after `createBooking db0 bd0` (booking id 1). -/
def afterCreate : DbState :=
  match createBooking db0 bd0 with
  | .ok (s, _) => s
  | .error _ => db0

/-- The state after cancelling booking 1 in `afterCreate`. -/
def afterCancel : DbState :=
  match cancelBooking afterCreate 1 "123456" with
  | .ok s => s
  | .error _ => afterCreate

/-- Is a repository result a success? -/
def isOkResult : Except RepoError DbState → Bool
  | .ok _ => true
  | .error _ => false

/-- A migration store whose recorded maximum version (4) already covers
every defined migration. -/
def storeUpToDate : MigrationStore :=
  { migrations := [⟨4, "booking_history_table", "cs4"⟩], executedScripts := [] }

/-! ## Helper lemmas: slot calculator -/

/-- Membership characterization for `getAvailableSlots`. -/
theorem mem_getAvailableSlots {now : Moment} {n : Nat} {busy : List Moment} {s : TimeSlot} :
    s ∈ getAvailableSlots now n busy ↔
      ∃ d, d < n ∧ (now.day + d) % 7 ≠ 0 ∧
        ∃ h, h ∈ workingHours ∧ (Moment.mk (now.day + d) h 0).isBefore now = false ∧
          Moment.mk (now.day + d) h 0 ∉ busy ∧ s = ⟨now.day + d, h, true⟩ := by
  simp only [getAvailableSlots, List.mem_filter, List.mem_flatMap, List.mem_range]
  constructor
  · rintro ⟨⟨d, hd, hmem⟩, hav⟩
    split at hmem
    · simp at hmem
    · rename_i hcond
      simp only [List.mem_filterMap] at hmem
      obtain ⟨h, hh, heq⟩ := hmem
      split at heq
      · simp at heq
      · rename_i hbef
        obtain rfl := Option.some_inj.mp heq
        simp only [Bool.or_eq_true, decide_eq_true_eq, beq_iff_eq, not_or] at hcond
        simp only [Bool.not_eq_true', decide_eq_false_iff_not] at hav
        exact ⟨d, hd, hcond.2, h, hh, Bool.not_eq_true _ ▸ Bool.of_not_eq_true hbef, hav, by
          simp [hav]⟩
  · rintro ⟨d, hd, h7, h, hh, hbef, hbusy, rfl⟩
    refine ⟨⟨d, hd, ?_⟩, ?_⟩
    · have hcond : (decide (now.day + d < now.day) || (now.day + d) % 7 == 0) = false := by
        simp [h7]
      rw [if_neg (by simp_all)]
      simp only [List.mem_filterMap]
      refine ⟨h, hh, ?_⟩
      rw [if_neg (by simp [hbef])]
      simp [hbusy]
    · simp [hbusy]

/-- Membership characterization for `getAvailableTimeSlots`. -/
theorem mem_getAvailableTimeSlots {day : Nat} {now : Moment} {busy : List Moment}
    {s : TimeSlot} :
    s ∈ getAvailableTimeSlots day now busy ↔
      ∃ h, h ∈ workingHours ∧ (Moment.mk day h 0).isBefore now = false ∧
        Moment.mk day h 0 ∉ busy ∧ s = ⟨day, h, true⟩ := by
  simp only [getAvailableTimeSlots, List.mem_filter, List.mem_filterMap]
  constructor
  · rintro ⟨⟨h, hh, heq⟩, hav⟩
    split at heq
    · simp at heq
    · rename_i hbef
      obtain rfl := Option.some_inj.mp heq
      simp only [Bool.not_eq_true', decide_eq_false_iff_not] at hav
      exact ⟨h, hh, Bool.not_eq_true _ ▸ Bool.of_not_eq_true hbef, hav, by simp [hav]⟩
  · rintro ⟨h, hh, hbef, hbusy, rfl⟩
    refine ⟨⟨h, hh, ?_⟩, ?_⟩
    · rw [if_neg (by simp [hbef])]
      simp [hbusy]
    · simp [hbusy]

/-- Membership characterization for `getAvailableDaySlots`. -/
theorem mem_getAvailableDaySlots {duration : String} {now : Moment} {n : Nat}
    {events : List Moment} {s : DayTimeSlot} :
    s ∈ getAvailableDaySlots duration now n events ↔
      ∃ d, d < n ∧ (∀ e ∈ events, e.day ≠ now.day + d) ∧
        s = ⟨duration, now.day + d, true⟩ := by
  simp only [getAvailableDaySlots, List.mem_filter]
  constructor
  · rintro ⟨hmem, hav⟩
    obtain ⟨d, hd, heq⟩ := List.mem_map.mp hmem
    rw [List.mem_range] at hd
    subst heq
    simp only [Bool.not_eq_true', decide_eq_false_iff_not] at hav
    refine ⟨d, hd, fun e he hday => hav (List.mem_map.mpr ⟨e, he, hday⟩), ?_⟩
    simp only [DayTimeSlot.mk.injEq, true_and, Bool.not_eq_true', and_true]
    simp
    exact fun e he hday => hav (List.mem_map.mpr ⟨e, he, hday⟩)
  · rintro ⟨d, hd, hfree, rfl⟩
    have hnotin : now.day + d ∉ events.map (·.day) := fun hmem => by
      obtain ⟨e, he, hday⟩ := List.mem_map.mp hmem
      exact hfree e he hday
    refine ⟨List.mem_map.mpr ⟨d, List.mem_range.mpr hd, ?_⟩, rfl⟩
    simp
    exact hfree

/-! ## Claims about the slot calculator -/

/-- Claim C5: every slot returned by `getAvailableSlots` for a reference
instant `now`, a look-ahead window of `daysAhead` days and a busy set
`busy` has an hour in the working-hours template, a date within the
requested window, a (date, time) key not in the busy set, and a date+time
not strictly before `now`; in particular, when `now` falls mid-slot-hour
on the current day, that hour of the current day is excluded as already
past. -/
theorem C5_getAvailableSlots_sound (now : Moment) (daysAhead : Nat) (busy : List Moment)
    (s : TimeSlot) (hs : s ∈ getAvailableSlots now daysAhead busy) :
    s.time ∈ workingHours ∧
    now.day ≤ s.date ∧ s.date < now.day + daysAhead ∧
    Moment.mk s.date s.time 0 ∉ busy ∧
    (Moment.mk s.date s.time 0).isBefore now = false ∧
    (0 < now.minute → ¬(s.date = now.day ∧ s.time = now.hour)) := by
  obtain ⟨d, hd, h7, h, hh, hbef, hbusy, rfl⟩ := mem_getAvailableSlots.mp hs
  refine ⟨hh, Nat.le_add_right _ _, ?_, hbusy, hbef, ?_⟩
  · show now.day + d < now.day + daysAhead
    omega
  rintro hm ⟨hdate, htime⟩
  have hdate2 : now.day + d = now.day := hdate
  have htime2 : h = now.hour := htime
  have hd0 : d = 0 := by omega
  subst hd0 htime2
  simp [Moment.isBefore] at hbef
  omega

/-- Witness for C5 at concrete inputs: reference instant day 1 (a Monday)
08:00, one-day window, empty busy set, and the returned slot
(day 1, 08:00). -/
theorem C5_witness :
    ((⟨1, 8, true⟩ : TimeSlot) ∈ getAvailableSlots ⟨1, 8, 0⟩ 1 []) ∧
    ((8 : Nat) ∈ workingHours ∧
      (1 : Nat) ≤ 1 ∧ (1 : Nat) < 1 + 1 ∧
      Moment.mk 1 8 0 ∉ ([] : List Moment) ∧
      (Moment.mk 1 8 0).isBefore ⟨1, 8, 0⟩ = false ∧
      (0 < (0 : Nat) → ¬((1 : Nat) = 1 ∧ (8 : Nat) = 8))) :=
  ⟨by decide, C5_getAvailableSlots_sound ⟨1, 8, 0⟩ 1 [] ⟨1, 8, true⟩ (by decide)⟩

/-- Claim C7: the multi-day iteration of `getAvailableSlots` omits every
slot falling on the excluded weekday (Sunday, day-of-week 0), while the
single-day `getAvailableTimeSlots` applies no weekday exclusion: on a
queried day that is a Sunday the template hours are still produced
(whenever they are not past and not busy). -/
theorem C7_sunday_exclusion :
    (∀ (now : Moment) (daysAhead : Nat) (busy : List Moment) (s : TimeSlot),
        s ∈ getAvailableSlots now daysAhead busy → s.date % 7 ≠ 0) ∧
    (∀ (day : Nat) (now : Moment) (busy : List Moment) (h : Nat),
        day % 7 = 0 → h ∈ workingHours →
        (Moment.mk day h 0).isBefore now = false →
        Moment.mk day h 0 ∉ busy →
        (⟨day, h, true⟩ : TimeSlot) ∈ getAvailableTimeSlots day now busy) := by
  constructor
  · intro now daysAhead busy s hs
    obtain ⟨d, _, h7, _, _, _, _, rfl⟩ := mem_getAvailableSlots.mp hs
    exact h7
  · intro day now busy h h7 hh hbef hbusy
    exact mem_getAvailableTimeSlots.mpr ⟨h, hh, hbef, hbusy, rfl⟩

/-- Witness for C7 at concrete inputs: a returned slot on (Monday) day 1
is not on a Sunday, and the single-day query for Sunday day 7 still
produces the 08:00 template slot. -/
theorem C7_witness :
    ((⟨1, 8, true⟩ : TimeSlot).date % 7 ≠ 0) ∧
    ((⟨7, 8, true⟩ : TimeSlot) ∈ getAvailableTimeSlots 7 ⟨7, 0, 0⟩ []) :=
  ⟨C7_sunday_exclusion.1 ⟨1, 8, 0⟩ 1 [] ⟨1, 8, true⟩ (by decide),
   C7_sunday_exclusion.2 7 ⟨7, 0, 0⟩ [] 8 (by decide) (by decide) (by decide) (by decide)⟩

/-- Claim C9 (implicit): the day-level availability query
`getAvailableDaySlots` keys its busy set by date only: a day on which at
least one calendar event starts — even a single busy hour — is omitted
from the returned list entirely, and conversely a day of the window with
no event starting on it is returned. -/
theorem C9_day_slots_date_keyed :
    (∀ (duration : String) (now : Moment) (daysAhead : Nat) (events : List Moment)
        (e : Moment), e ∈ events →
        ∀ s ∈ getAvailableDaySlots duration now daysAhead events, s.date ≠ e.day) ∧
    (∀ (duration : String) (now : Moment) (daysAhead : Nat) (events : List Moment)
        (d : Nat), now.day ≤ d → d < now.day + daysAhead →
        (∀ e ∈ events, e.day ≠ d) →
        (⟨duration, d, true⟩ : DayTimeSlot) ∈ getAvailableDaySlots duration now daysAhead events) := by
  constructor
  · intro duration now daysAhead events e he s hs
    obtain ⟨d, _, hfree, rfl⟩ := mem_getAvailableDaySlots.mp hs
    exact fun hday => hfree e he hday.symm
  · intro duration now daysAhead events d hlo hhi hfree
    obtain ⟨k, hk⟩ := Nat.le.dest hlo
    subst hk
    exact mem_getAvailableDaySlots.mpr ⟨k, by omega, fun e he => hfree e he, rfl⟩

/-- Witness for C9 at concrete inputs: a single event at 09:00 on day 2
removes day 2 from the 3-day window starting at day 1, while day 1 (no
event) is returned. -/
theorem C9_witness :
    (∀ s ∈ getAvailableDaySlots "60" ⟨1, 8, 0⟩ 3 [⟨2, 9, 0⟩], s.date ≠ (2 : Nat)) ∧
    ((⟨"60", 1, true⟩ : DayTimeSlot) ∈ getAvailableDaySlots "60" ⟨1, 8, 0⟩ 3 [⟨2, 9, 0⟩]) :=
  ⟨fun s hs => C9_day_slots_date_keyed.1 "60" ⟨1, 8, 0⟩ 3 [⟨2, 9, 0⟩] ⟨2, 9, 0⟩ (by decide) s hs,
   C9_day_slots_date_keyed.2 "60" ⟨1, 8, 0⟩ 3 [⟨2, 9, 0⟩] 1 (by decide) (by decide) (by decide)⟩

/-! ## Helper lemmas: booking repository -/

/-- Inversion of a successful `createBooking` run. -/
theorem createBooking_ok {s : DbState} {d : BookingData} {s1 : DbState} {id : Nat}
    (h : createBooking s d = .ok (s1, id)) :
    s.bookings.any (occupiesSlot d.sessionDate d.sessionTime) = false ∧
    id = s.nextId ∧
    s1.bookings = s.bookings ++ [⟨s.nextId, { d with notes := jsFalsyNotes d.notes }⟩] ∧
    s1.history = s.history ++ [⟨s.nextId, .created, none, some (.ofData d), d.telegramUserId⟩] ∧
    s1.nextId = s.nextId + 1 := by
  simp only [createBooking, execStmt] at h
  split at h
  · simp at h
  · simp at h
  · rename_i sIns heq
    split at heq
    · simp at heq
    · rename_i hany
      obtain rfl := Except.ok.inj heq
      simp only [logBookingHistory, Except.ok.injEq, Prod.mk.injEq] at h
      obtain ⟨h1, h2⟩ := h
      subst h1 h2
      exact ⟨by simpa using hany, rfl, rfl, rfl, rfl⟩

/-- A `createBooking` on a slot already occupied by any existing row
(whatever its status) fails with the translated duplicate-slot error. -/
theorem createBooking_occupied {s : DbState} {d : BookingData}
    (hocc : s.bookings.any (occupiesSlot d.sessionDate d.sessionTime) = true) :
    createBooking s d = .error .duplicateSlot := by
  simp only [createBooking, execStmt]
  rw [if_pos hocc]

/-- Inversion of a successful `updateBooking` run. -/
theorem updateBooking_ok {s : DbState} {id : Nat} {updates : List FieldUpdate}
    {performedBy : String} {s1 : DbState}
    (h : updateBooking s id updates performedBy = .ok s1) :
    ∃ b0, getBookingById s id = some b0 ∧
      isValidSetClause (setClause updates) = true ∧
      s1.bookings = s.bookings.map (fun b =>
        if b.id == id then ⟨b.id, applyUpdates b.data updates⟩ else b) ∧
      s1.history = s.history ++ [⟨id, .modified, some (.ofBooking b0),
        some (.ofBooking ⟨b0.id, applyUpdates b0.data updates⟩), performedBy⟩] ∧
      s1.nextId = s.nextId := by
  unfold updateBooking at h
  split at h
  · simp at h
  · rename_i b0 hb
    split at h
    · simp at h
    · rename_i hvalid
      have hv : isValidSetClause (setClause updates) = true := by
        simpa using hvalid
      simp only [execStmt] at h
      split at h
      · simp at h
      · rename_i sMid heq
        split at heq
        · simp at heq
        · rename_i hclash
          obtain rfl := Except.ok.inj heq
          simp only [logBookingHistory, Except.ok.injEq] at h
          subst h
          exact ⟨b0, hb, hv, rfl, rfl, rfl⟩

/-- Inversion of a successful `cancelBooking` run: the one row is updated
to cancelled status and exactly two history entries are appended. -/
theorem cancelBooking_ok {s : DbState} {id : Nat} {performedBy : String} {s1 : DbState}
    (h : cancelBooking s id performedBy = .ok s1) :
    ∃ b0, getBookingById s id = some b0 ∧
      s1.bookings = s.bookings.map (fun b =>
        if b.id == id then ⟨b.id, applyUpdates b.data [.status .cancelled]⟩ else b) ∧
      s1.history = s.history ++
        [⟨id, .modified, some (.ofBooking b0),
          some (.ofBooking ⟨b0.id, applyUpdates b0.data [.status .cancelled]⟩), performedBy⟩,
         ⟨id, .cancelled, some (.ofBooking b0),
          some (.ofBooking ⟨b0.id, applyUpdates b0.data [.status .cancelled]⟩), performedBy⟩] ∧
      s1.nextId = s.nextId := by
  unfold cancelBooking at h
  split at h
  · simp at h
  · rename_i b0 hb
    split at h
    · simp at h
    · rename_i sMid hu
      obtain ⟨b1, hb1, _, hbk, hhist, hnext⟩ := updateBooking_ok hu
      have hbb : b0 = b1 := Option.some_inj.mp (hb.symm.trans hb1)
      subst hbb
      simp only [logBookingHistory, Except.ok.injEq] at h
      subst h
      refine ⟨b0, hb, hbk, ?_, hnext⟩
      rw [hhist]
      simp

/-! ## Claims about the booking repository -/

/-- Claim C1 counterexample: the mutating operations are not wrapped in a
transaction — `createBooking` issues its `INSERT INTO bookings` and the
history `INSERT` as two separate auto-committed statements — so the
durable state reached after the first statement alone has the data change
applied (a new bookings row) with the history entry missing.  The claim
asserts such a state is unreachable; here it is exhibited concretely. -/
theorem C1_counterexample :
    (runStmts db0 ((createBookingStmts db0 bd0).take 1)).bookings ≠ db0.bookings ∧
    (runStmts db0 ((createBookingStmts db0 bd0).take 1)).history = db0.history := by
  constructor
  · intro heq
    have := congrArg List.length heq
    simp [runStmts, execStmt, createBookingStmts, db0, bd0] at this
  · decide

/-- Claim C1 as amended: each mutating operation, when it runs to
completion, applies both its data change and its history logging (two
entries in the case of `cancelBooking`); but the statements are separate
auto-committed statements with no wrapping transaction, so whenever the
run stops after the data-change statement, the store is durably left with
the data changed and the history entry missing. -/
theorem C1_amended :
    (∀ (s : DbState) (d : BookingData) (s1 : DbState) (id : Nat),
        createBooking s d = .ok (s1, id) →
        s1.bookings = s.bookings ++ [⟨s.nextId, { d with notes := jsFalsyNotes d.notes }⟩] ∧
        s1.history = s.history ++
          [⟨s.nextId, .created, none, some (.ofData d), d.telegramUserId⟩]) ∧
    (∀ (s : DbState) (id : Nat) (us : List FieldUpdate) (u : String) (s1 : DbState),
        updateBooking s id us u = .ok s1 →
        s1.bookings = s.bookings.map (fun b =>
          if b.id == id then ⟨b.id, applyUpdates b.data us⟩ else b) ∧
        s1.history.length = s.history.length + 1) ∧
    (∀ (s : DbState) (id : Nat) (u : String) (s1 : DbState),
        cancelBooking s id u = .ok s1 → s1.history.length = s.history.length + 2) ∧
    (∀ (s : DbState) (d : BookingData),
        s.bookings.any (occupiesSlot d.sessionDate d.sessionTime) = false →
        (runStmts s ((createBookingStmts s d).take 1)).bookings ≠ s.bookings ∧
        (runStmts s ((createBookingStmts s d).take 1)).history = s.history) := by
  refine ⟨?_, ?_, ?_, ?_⟩
  · intro s d s1 id h
    obtain ⟨_, _, hbk, hh, _⟩ := createBooking_ok h
    exact ⟨hbk, hh⟩
  · intro s id us u s1 h
    obtain ⟨b0, _, _, hbk, hh, _⟩ := updateBooking_ok h
    refine ⟨hbk, ?_⟩
    rw [hh]
    simp
  · intro s id u s1 h
    obtain ⟨b0, _, _, hh, _⟩ := cancelBooking_ok h
    rw [hh]
    simp
  · intro s d hfree
    have htake : (createBookingStmts s d).take 1 =
        [.insertBooking { d with notes := jsFalsyNotes d.notes }] := rfl
    have hrun : runStmts s ((createBookingStmts s d).take 1) =
        { s with
          bookings := s.bookings ++ [⟨s.nextId, { d with notes := jsFalsyNotes d.notes }⟩],
          nextId := s.nextId + 1 } := by
      rw [htake]
      simp [runStmts, execStmt, hfree]
    rw [hrun]
    constructor
    · intro heq
      have := congrArg List.length heq
      simp at this
    · rfl

/-- Witness for C1 at concrete inputs: on the empty store and the payload
for slot (2024-06-10, 14:00), the committed state after only the first
statement of `createBooking` has a bookings row but no history entry. -/
theorem C1_witness :
    db0.bookings.any (occupiesSlot bd0.sessionDate bd0.sessionTime) = false ∧
    ((runStmts db0 ((createBookingStmts db0 bd0).take 1)).bookings ≠ db0.bookings ∧
     (runStmts db0 ((createBookingStmts db0 bd0).take 1)).history = db0.history) :=
  ⟨by decide, C1_amended.2.2.2 db0 bd0 (by decide)⟩

/-- Claim C2 counterexample: after a successful `cancelBooking` of the
booking holding slot (2024-06-10, 14:00), a `createBooking` for the same
(sessionDate, sessionTime) does not succeed — it fails with the
duplicate-slot error, because the `unique_session` constraint is
unconditional and the cancelled row is retained. -/
theorem C2_counterexample :
    cancelBooking afterCreate 1 "123456" = .ok afterCancel ∧
    createBooking afterCancel bd0 = .error .duplicateSlot := ⟨rfl, rfl⟩

/-- Claim C2 as amended: the pair (sessionDate, sessionTime) is unique
among all bookings regardless of status — any existing row occupying the
slot, including a cancelled one, makes `createBooking` fail with the
duplicate-slot error — and `cancelBooking` retains the row (same slot,
status cancelled), so cancellation does not free the slot. -/
theorem C2_amended :
    (∀ (s : DbState) (d : BookingData) (b : Booking), b ∈ s.bookings →
        b.data.sessionDate = d.sessionDate → b.data.sessionTime = d.sessionTime →
        createBooking s d = .error .duplicateSlot) ∧
    (∀ (s : DbState) (id : Nat) (u : String) (s1 : DbState),
        cancelBooking s id u = .ok s1 →
        ∃ b0, getBookingById s id = some b0 ∧
          (⟨b0.id, applyUpdates b0.data [.status .cancelled]⟩ : Booking) ∈ s1.bookings ∧
          (applyUpdates b0.data [.status .cancelled]).sessionDate = b0.data.sessionDate ∧
          (applyUpdates b0.data [.status .cancelled]).sessionTime = b0.data.sessionTime ∧
          (applyUpdates b0.data [.status .cancelled]).status = .cancelled) := by
  constructor
  · intro s d b hm hdate htime
    apply createBooking_occupied
    exact List.any_eq_true.mpr ⟨b, hm, by simp [occupiesSlot, hdate, htime]⟩
  · intro s id u s1 h
    obtain ⟨b0, hb, hbk, _, _⟩ := cancelBooking_ok h
    refine ⟨b0, hb, ?_, rfl, rfl, rfl⟩
    rw [hbk]
    refine List.mem_map.mpr ⟨b0, List.mem_of_find?_eq_some hb, ?_⟩
    have hid : (b0.id == id) = true := by simpa using List.find?_some hb
    simp [hid]

/-- Witness for C2 at concrete inputs: the retained cancelled row for slot
(2024-06-10, 14:00) makes a fresh `createBooking` of the same payload fail
with the duplicate-slot error. -/
theorem C2_witness :
    ((⟨1, { bd0 with status := .cancelled }⟩ : Booking) ∈ afterCancel.bookings) ∧
    createBooking afterCancel bd0 = .error .duplicateSlot :=
  ⟨by decide,
   C2_amended.1 afterCancel bd0 ⟨1, { bd0 with status := .cancelled }⟩ (by decide) rfl rfl⟩

/-- Claim C3 counterexample: a single successful `cancelBooking` call
appends two history entries, not exactly one — `updateBooking` logs a
"modified" entry and `cancelBooking` then logs a "cancelled" entry.  On
the concrete store the history grows from one entry to three. -/
theorem C3_counterexample :
    cancelBooking afterCreate 1 "123456" = .ok afterCancel ∧
    afterCreate.history.length = 1 ∧ afterCancel.history.length = 3 :=
  ⟨rfl, by decide, by decide⟩

/-- Claim C3 as amended: `createBooking` and `updateBooking` each append
exactly one history entry whose oldValues/newValues snapshot the field
values before and after the mutation (for creation: oldValues null,
newValues the submitted payload); `cancelBooking` instead appends exactly
two entries — a "modified" one and a "cancelled" one — both carrying the
pre-cancellation row as oldValues and the cancelled row as newValues. -/
theorem C3_amended :
    (∀ (s : DbState) (d : BookingData) (s1 : DbState) (id : Nat),
        createBooking s d = .ok (s1, id) →
        s1.history = s.history ++
          [⟨s.nextId, .created, none, some (.ofData d), d.telegramUserId⟩]) ∧
    (∀ (s : DbState) (id : Nat) (us : List FieldUpdate) (u : String) (s1 : DbState),
        updateBooking s id us u = .ok s1 →
        ∃ b0, getBookingById s id = some b0 ∧
          s1.history = s.history ++ [⟨id, .modified, some (.ofBooking b0),
            some (.ofBooking ⟨b0.id, applyUpdates b0.data us⟩), u⟩]) ∧
    (∀ (s : DbState) (id : Nat) (u : String) (s1 : DbState),
        cancelBooking s id u = .ok s1 →
        ∃ b0, getBookingById s id = some b0 ∧
          s1.history = s.history ++
            [⟨id, .modified, some (.ofBooking b0),
              some (.ofBooking ⟨b0.id, applyUpdates b0.data [.status .cancelled]⟩), u⟩,
             ⟨id, .cancelled, some (.ofBooking b0),
              some (.ofBooking ⟨b0.id, applyUpdates b0.data [.status .cancelled]⟩), u⟩]) := by
  refine ⟨?_, ?_, ?_⟩
  · intro s d s1 id h
    obtain ⟨_, _, _, hh, _⟩ := createBooking_ok h
    exact hh
  · intro s id us u s1 h
    obtain ⟨b0, hb, _, _, hh, _⟩ := updateBooking_ok h
    exact ⟨b0, hb, hh⟩
  · intro s id u s1 h
    obtain ⟨b0, hb, _, hh, _⟩ := cancelBooking_ok h
    exact ⟨b0, hb, hh⟩

/-- Witness for C3 at concrete inputs: the cancellation of booking 1 on
the concrete store appends exactly the "modified" and "cancelled" pair. -/
theorem C3_witness :
    ∃ b0, getBookingById afterCreate 1 = some b0 ∧
      afterCancel.history = afterCreate.history ++
        [⟨1, .modified, some (.ofBooking b0),
          some (.ofBooking ⟨b0.id, applyUpdates b0.data [.status .cancelled]⟩), "123456"⟩,
         ⟨1, .cancelled, some (.ofBooking b0),
          some (.ofBooking ⟨b0.id, applyUpdates b0.data [.status .cancelled]⟩), "123456"⟩] :=
  C3_amended.2.2 afterCreate 1 "123456" afterCancel rfl

/-- Claim C4: on a store with no row occupying the slot of `d` (and an
active payload), the first `createBooking` succeeds with the next row id,
the second `createBooking` of the identical (sessionDate, sessionTime)
fails with the distinguishable duplicate-slot error, and afterwards
exactly one active row occupies that slot. -/
theorem C4_duplicate_create (s : DbState) (d : BookingData)
    (hfree : ∀ b ∈ s.bookings, occupiesSlot d.sessionDate d.sessionTime b = false)
    (hact : d.status = .active) :
    ∃ s1, createBooking s d = .ok (s1, s.nextId) ∧
      createBooking s1 d = .error .duplicateSlot ∧
      (s1.bookings.filter (fun b =>
        occupiesSlot d.sessionDate d.sessionTime b &&
          b.data.status == BookingStatus.active)).length = 1 := by
  have hany : s.bookings.any (occupiesSlot d.sessionDate d.sessionTime) = false := by
    rw [List.any_eq_false]
    intro b hb
    simp [hfree b hb]
  refine ⟨{ bookings := s.bookings ++ [⟨s.nextId, { d with notes := jsFalsyNotes d.notes }⟩],
            history := s.history ++
              [⟨s.nextId, .created, none, some (.ofData d), d.telegramUserId⟩],
            nextId := s.nextId + 1 }, ?_, ?_, ?_⟩
  · simp [createBooking, execStmt, hany, logBookingHistory]
  · apply createBooking_occupied
    show (s.bookings ++ [⟨s.nextId, { d with notes := jsFalsyNotes d.notes }⟩] :
        List Booking).any (occupiesSlot d.sessionDate d.sessionTime) = true
    rw [List.any_eq_true]
    exact ⟨⟨s.nextId, { d with notes := jsFalsyNotes d.notes }⟩, by simp,
           by simp [occupiesSlot]⟩
  · show ((s.bookings ++ [(⟨s.nextId, { d with notes := jsFalsyNotes d.notes }⟩ : Booking)]).filter
        (fun b => occupiesSlot d.sessionDate d.sessionTime b &&
          b.data.status == BookingStatus.active)).length = 1
    rw [List.filter_append]
    have h1 : s.bookings.filter (fun b =>
        occupiesSlot d.sessionDate d.sessionTime b &&
          b.data.status == BookingStatus.active) = [] := by
      rw [List.filter_eq_nil_iff]
      intro b hb
      simp [hfree b hb]
    rw [h1]
    simp [occupiesSlot, hact]

/-- Witness for C4 at concrete inputs: the empty store and the payload for
slot (2024-06-10, 14:00). -/
theorem C4_witness :
    ∃ s1, createBooking db0 bd0 = .ok (s1, db0.nextId) ∧
      createBooking s1 bd0 = .error .duplicateSlot ∧
      (s1.bookings.filter (fun b =>
        occupiesSlot bd0.sessionDate bd0.sessionTime b &&
          b.data.status == BookingStatus.active)).length = 1 :=
  C4_duplicate_create db0 bd0 (by decide) rfl

/-! ## Claims about credential refresh -/

/-- Claim C6 counterexample: with a stored credential that is not expired
(expiry 100, clock 0), `refreshTokenIfNeeded` still performs a refresh
exchange (one exchange, not zero) — the source never consults the stored
expiry before calling the provider. -/
theorem C6_counterexample :
    ((0 : Int) < (100 : Int)) ∧
    (refreshTokenIfNeeded (some ⟨"newAccess", "newRefresh", 200⟩) 0
        (some ⟨"access", "refresh", 100⟩)).2 = 1 :=
  ⟨by decide, rfl⟩

/-- Claim C6 as amended: before every external-calendar call the
refresh-token exchange is performed unconditionally — exactly one exchange
per call, with no expiry check, so an unexpired credential is exchanged
too; when the exchange fails, the refresh and the calling operation fail
with the dedicated authentication error, which is distinct from every
other calendar failure. -/
theorem C6_amended :
    (∀ (provider : Option Credentials) (now : Int) (stored : Option StoredTokens),
        (refreshTokenIfNeeded provider now stored).2 = 1) ∧
    (∀ (now : Int) (stored : Option StoredTokens),
        (refreshTokenIfNeeded none now stored).1 = .error .authenticationFailed) ∧
    (∀ (now : Int) (stored : Option StoredTokens)
        (insertResult : Except CalendarError String),
        createEvent none now stored insertResult = .error .authenticationFailed) ∧
    (∀ msg, CalendarError.authenticationFailed ≠ CalendarError.apiError msg) := by
  refine ⟨?_, ?_, ?_, ?_⟩
  · intro provider now stored
    cases provider <;> rfl
  · intro now stored
    rfl
  · intro now stored insertResult
    rfl
  · intro msg h
    exact CalendarError.noConfusion h

/-! ## Claims about migrations -/

/-- Claim C8: `runMigrations` applies exactly the pending migrations
(those with version above the recorded maximum), one per-migration
transaction each recording version, name and checksum, in strictly
ascending version order, appending the records to the table; and
re-running it on a store whose recorded maximum version covers every
defined migration is a no-op returning the store unchanged with nothing
applied. -/
theorem C8_run_migrations (hash : String → String) (store : MigrationStore) :
    List.Chain' (· < ·) ((runMigrations hash store).2.map (·.version)) ∧
    (∀ m ∈ getMigrations,
        ((⟨m.version, m.name, calculateMigrationChecksum hash m⟩ : MigrationRecord) ∈
            (runMigrations hash store).2 ↔
          currentVersion store.migrations < m.version)) ∧
    (runMigrations hash store).1.migrations =
      store.migrations ++ (runMigrations hash store).2 ∧
    ((∀ m ∈ getMigrations, m.version ≤ currentVersion store.migrations) →
        runMigrations hash store = (store, [])) := by
  refine ⟨?_, ?_, rfl, ?_⟩
  · show List.Chain' (· < ·)
      (((getMigrations.filter fun m =>
          decide (currentVersion store.migrations < m.version)).map fun m =>
        (⟨m.version, m.name, calculateMigrationChecksum hash m⟩ : MigrationRecord)).map
          (·.version))
    rw [List.map_map]
    show List.Chain' (· < ·)
      ((getMigrations.filter fun m =>
          decide (currentVersion store.migrations < m.version)).map (·.version))
    have hmap : getMigrations.map (·.version) = [1, 2, 3, 4] := rfl
    have hchain : List.Chain' (· < ·) (getMigrations.map (·.version)) := by
      rw [hmap]
      norm_num [List.chain'_cons]
    exact hchain.sublist ((List.filter_sublist _).map _)
  · intro m hm
    constructor
    · intro hmem
      simp only [runMigrations, List.mem_map, List.mem_filter] at hmem
      obtain ⟨m', ⟨hm', hp⟩, heq⟩ := hmem
      have hv : m'.version = m.version := congrArg MigrationRecord.version heq
      rw [← hv]
      exact of_decide_eq_true hp
    · intro hlt
      simp only [runMigrations, List.mem_map, List.mem_filter]
      exact ⟨m, ⟨hm, decide_eq_true hlt⟩, rfl⟩
  · intro hup
    have hfilter : getMigrations.filter (fun m =>
        decide (currentVersion store.migrations < m.version)) = [] := by
      rw [List.filter_eq_nil_iff]
      intro m hm
      simp only [decide_eq_true_eq]
      exact Nat.not_lt.mpr (hup m hm)
    simp [runMigrations, hfilter]

/-- Witness for C8 at concrete inputs: on a store whose recorded maximum
version is 4, every defined migration is covered and a re-run is a
no-op. -/
theorem C8_witness :
    (∀ m ∈ getMigrations, m.version ≤ currentVersion storeUpToDate.migrations) ∧
    runMigrations (fun s => s) storeUpToDate = (storeUpToDate, []) :=
  ⟨by decide, (C8_run_migrations (fun s => s) storeUpToDate).2.2.2 (by decide)⟩

/-! ## Helper lemmas: SET clause well-formedness -/

/-- String append concatenates the underlying character lists. -/
theorem data_append (s t : String) : (s ++ t).data = s.data ++ t.data := rfl

/-- Splitting a comma-free stream yields a single piece. -/
theorem splitCommaAux_no_comma {xs : List Char} (hx : ',' ∉ xs) (acc : List Char) :
    splitCommaAux xs acc = [acc.reverse ++ xs] := by
  induction xs generalizing acc with
  | nil => simp [splitCommaAux]
  | cons c rest ih =>
    have hc : (c == ',') = false := by
      simp only [List.mem_cons, not_or] at hx
      simp only [beq_eq_false_iff_ne, ne_eq]
      exact fun h => hx.1 h.symm
    rw [splitCommaAux, if_neg (by simp [hc])]
    rw [ih (fun h => hx (List.mem_cons_of_mem _ h)) (c :: acc)]
    simp

/-- Splitting peels off the first comma-free piece at the first comma. -/
theorem splitCommaAux_comma_split {xs : List Char} (hx : ',' ∉ xs) (ys acc : List Char) :
    splitCommaAux (xs ++ ',' :: ys) acc = (acc.reverse ++ xs) :: splitCommaAux ys [] := by
  induction xs generalizing acc with
  | nil => simp [splitCommaAux]
  | cons c rest ih =>
    have hc : (c == ',') = false := by
      simp only [List.mem_cons, not_or] at hx
      simp only [beq_eq_false_iff_ne, ne_eq]
      exact fun h => hx.1 h.symm
    rw [List.cons_append, splitCommaAux, if_neg (by simp [hc])]
    rw [ih (fun h => hx (List.mem_cons_of_mem _ h)) (c :: acc)]
    simp

/-- Trimming ignores a leading space character. -/
theorem trimChars_cons_space (c : Char) (hc : isSpaceChar c = true) (cs : List Char) :
    trimChars (c :: cs) = trimChars cs := by
  simp [trimChars, List.dropWhile_cons, hc]

/-- Trimming ignores any all-space leading run. -/
theorem trimChars_space_append (sp cs : List Char)
    (hsp : ∀ c ∈ sp, isSpaceChar c = true) :
    trimChars (sp ++ cs) = trimChars cs := by
  induction sp with
  | nil => rfl
  | cons c rest ih =>
    rw [List.cons_append, trimChars_cons_space c (hsp c (by simp))]
    exact ih (fun c hc => hsp c (by simp [hc]))

/-- Assignment validity is unaffected by an all-space leading run. -/
theorem isValidAssignment_space_append (sp cs : List Char)
    (hsp : ∀ c ∈ sp, isSpaceChar c = true) :
    isValidAssignment (sp ++ cs) = isValidAssignment cs := by
  simp only [isValidAssignment]
  rw [trimChars_space_append sp cs hsp]

/-- Each generated piece `key = ?` is a well-formed assignment. -/
theorem key_assignment_valid (u : FieldUpdate) :
    isValidAssignment (u.key ++ " = ?").data = true := by
  cases u <;> simp only [FieldUpdate.key] <;> decide

/-- No generated piece `key = ?` contains a comma. -/
theorem key_no_comma (u : FieldUpdate) : ',' ∉ (u.key ++ " = ?").data := by
  cases u <;> simp only [FieldUpdate.key] <;> decide

/-- Every comma-separated piece of the `SET` clause generated for a
nonempty update list is a well-formed assignment, for any all-space
split accumulator. -/
theorem setClause_parts_valid (us : List FieldUpdate) (h : us ≠ []) (acc : List Char)
    (hacc : ∀ c ∈ acc, isSpaceChar c = true) :
    (splitCommaAux ((joinFields us ++ ", updatedAt = CURRENT_TIMESTAMP").data) acc).all
      isValidAssignment = true := by
  induction us generalizing acc with
  | nil => exact absurd rfl h
  | cons u rest ih =>
    have hrevacc : ∀ c ∈ acc.reverse, isSpaceChar c = true := by
      intro c hc
      exact hacc c (List.mem_reverse.mp hc)
    have hhead : isValidAssignment (acc.reverse ++ (u.key ++ " = ?").data) = true := by
      rw [isValidAssignment_space_append acc.reverse _ hrevacc]
      exact key_assignment_valid u
    cases rest with
    | nil =>
      have hdata : ((joinFields [u] ++ ", updatedAt = CURRENT_TIMESTAMP").data) =
          (u.key ++ " = ?").data ++ ',' :: (" updatedAt = CURRENT_TIMESTAMP").data := rfl
      rw [hdata, splitCommaAux_comma_split (key_no_comma u)]
      rw [List.all_cons, hhead, Bool.true_and]
      decide
    | cons v rest2 =>
      have hdata : ((joinFields (u :: v :: rest2) ++ ", updatedAt = CURRENT_TIMESTAMP").data) =
          (u.key ++ " = ?").data ++ ',' ::
            (' ' :: (joinFields (v :: rest2) ++ ", updatedAt = CURRENT_TIMESTAMP").data) := by
        show (((u.key ++ " = ?" ++ ", ") ++ joinFields (v :: rest2)) ++
            ", updatedAt = CURRENT_TIMESTAMP").data = _
        simp [data_append, List.append_assoc]
      rw [hdata, splitCommaAux_comma_split (key_no_comma u)]
      rw [List.all_cons, hhead, Bool.true_and]
      have hstep : splitCommaAux
          (' ' :: (joinFields (v :: rest2) ++ ", updatedAt = CURRENT_TIMESTAMP").data) [] =
          splitCommaAux ((joinFields (v :: rest2) ++ ", updatedAt = CURRENT_TIMESTAMP").data)
            [' '] := by
        rw [splitCommaAux]
        rw [if_neg (by decide)]
      rw [hstep]
      exact ih (by simp) [' '] (by decide)

/-! ## Claim about the generated UPDATE statement -/

/-- Claim C10 (implicit): for every call of `updateBooking` with at least
one field in the partial update the generated parameterized `UPDATE`
statement has a well-formed `SET` clause, while a call with an empty
partial update fails before any write — `db.prepare` rejects the
malformed `SET , updatedAt = CURRENT_TIMESTAMP` clause (or the lookup
fails first with not-found) — and executes no write statement, leaving
the booking row and the history log unchanged. -/
theorem C10_empty_update_rejected :
    (∀ (updates : List FieldUpdate), updates ≠ [] →
        isValidSetClause (setClause updates) = true) ∧
    (∀ (s : DbState) (id : Nat) (u : String),
        updateBookingStmts s id [] u = [] ∧
        (updateBooking s id [] u = .error .notFound ∨
         updateBooking s id [] u = .error .sqlMalformed)) := by
  constructor
  · intro us h
    unfold isValidSetClause setClause splitComma
    exact setClause_parts_valid us h [] (by simp)
  · intro s id u
    have hval : isValidSetClause (setClause ([] : List FieldUpdate)) = false := by decide
    constructor
    · cases hb : getBookingById s id with
      | none => simp [updateBookingStmts, hb]
      | some b0 => simp [updateBookingStmts, hb, hval]
    · cases hb : getBookingById s id with
      | none => left; simp [updateBooking, hb]
      | some b0 => right; simp [updateBooking, hb, hval]

/-- Witness for C10 at concrete inputs: the single-field update list
produces a valid clause, and the empty update on the concrete store is
rejected without executing any write statement. -/
theorem C10_witness :
    isValidSetClause (setClause [.status .cancelled]) = true ∧
    (updateBookingStmts afterCreate 1 [] "123456" = [] ∧
     (updateBooking afterCreate 1 [] "123456" = .error .notFound ∨
      updateBooking afterCreate 1 [] "123456" = .error .sqlMalformed)) :=
  ⟨C10_empty_update_rejected.1 [.status .cancelled] (by simp),
   C10_empty_update_rejected.2 afterCreate 1 "123456"⟩

/-- Witness for C6 at concrete inputs: a successful exchange on an
unexpired credential still counts one refresh exchange. -/
theorem C6_witness :
    (refreshTokenIfNeeded (some ⟨"newAccess", "newRefresh", 200⟩) 0
        (some ⟨"access", "refresh", 100⟩)).2 = 1 :=
  C6_amended.1 (some ⟨"newAccess", "newRefresh", 200⟩) 0 (some ⟨"access", "refresh", 100⟩)
